import Mathlib

/-!
# SyllabusAI — formal model of the exam generation and grading pipeline

Shallow embedding of the core logic of the SyllabusAI repository:

* `server/gemini.ts` — `safeJsonParse`, `generateExam`, `generateMockExam`,
  `extractCourseTitle` and the exam-generation prompt construction;
* `server/routes.ts` — the answer submission route
  (`POST /api/attempts/:id/answers`), the attempt-creation route
  (`POST /api/exams/:id/attempts`) and the grading helper `isAnswerCorrect`;
* `server/storage.ts` — the storage operations those routes use, modelled as
  explicit state passing over a `Storage` record.

JavaScript string primitives (`toLowerCase`, `trim`, `includes`, `split`,
`match` with the specific regular expressions appearing in the source,
`JSON.parse`) are modelled as executable Lean functions over `List Char`.
Lowercasing is ASCII (`Char.toLower`), and `\s`/`trim` use
`Char.isWhitespace`; the source code only exercises these on ASCII data.
-/

namespace SyllabusAI

/-! ## JavaScript string primitives -/

/-- `s.toLowerCase()` (ASCII case mapping). -/
def jsToLower (s : String) : String := String.mk (s.data.map Char.toLower)

/-- Drop leading and trailing whitespace from a character list. -/
def trimL (l : List Char) : List Char :=
  ((l.dropWhile Char.isWhitespace).reverse.dropWhile Char.isWhitespace).reverse

/-- `s.trim()`. -/
def jsTrim (s : String) : String := String.mk (trimL s.data)

/-- `hay.includes(needle)`: substring containment (true for the empty needle,
as in JavaScript). -/
def jsIncludes (hay needle : String) : Bool :=
  decide (needle.data <:+: hay.data)

/-- `s.split(sep)` for a single-character separator, on character lists.
Keeps empty segments, exactly like the JavaScript `String.prototype.split`. -/
def splitChar (sep : Char) : List Char → List (List Char)
  | [] => [[]]
  | c :: rest =>
    match splitChar sep rest with
    | [] => [[]]
    | h :: t => if c = sep then [] :: h :: t else (c :: h) :: t

/-- `parts.join(sep)` on character lists. -/
def joinSepL (sep : List Char) : List (List Char) → List Char
  | [] => []
  | [x] => x
  | x :: y :: rest => x ++ sep ++ joinSepL sep (y :: rest)

/-- `s.substring(0, n)` (prefix of length at most `n`). -/
def jsSlice (s : String) (n : Nat) : String := String.mk (s.data.take n)

/-- `str.charAt(0).toUpperCase() + str.slice(1)` — capitalise the first
character, as done for the mock exam title. -/
def capFirst (s : String) : String :=
  match s.data with
  | [] => ""
  | c :: rest => String.mk (c.toUpper :: rest)

/-! ## Data model (`shared/schema` rows and `gemini.ts` interfaces) -/

/-- The `type` field of `ExamConfig` (`"multiple-choice" | "short-answer"`). -/
inductive ExamType where
  | multipleChoice
  | shortAnswer
deriving DecidableEq

/-- The string value of the `type` union member. -/
def ExamType.str : ExamType → String
  | .multipleChoice => "multiple-choice"
  | .shortAnswer => "short-answer"

/-- The `difficulty` field (`"easy" | "medium" | "hard" | "mixed"`). -/
inductive Difficulty where
  | easy
  | medium
  | hard
  | mixed
deriving DecidableEq

/-- The string value of the `difficulty` union member. -/
def Difficulty.str : Difficulty → String
  | .easy => "easy"
  | .medium => "medium"
  | .hard => "hard"
  | .mixed => "mixed"

/-- `ExamConfig` from `gemini.ts`. -/
structure ExamConfig where
  type : ExamType
  questionCount : Nat
  difficulty : Difficulty
  topics : List String
  timeLimit : Option Nat

/-- An answer option `{id, text}` of a multiple-choice question. -/
structure Opt where
  id : String
  text : String
deriving DecidableEq

/-- A generated question (the `Question` union of `gemini.ts`; short-answer
questions carry `options := none`, matching the `null` stored by the routes). -/
structure GenQuestion where
  content : String
  questionType : String
  options : Option (List Opt)
  correctAnswer : String
  topic : String
  difficulty : String
deriving DecidableEq, Inhabited

/-- The `Exam` shape of `gemini.ts`: a title and an ordered question list. -/
structure GenExam where
  title : String
  questions : List GenQuestion
deriving DecidableEq

/-! ## Grading (`isAnswerCorrect` in `server/routes.ts`) -/

/-- A question row as persisted by the storage layer (the fields the routes
read: primary key, owning exam, and the grading-relevant payload). -/
structure StoredQuestion where
  id : Nat
  examId : Nat
  questionType : String
  options : Option (List Opt)
  correctAnswer : String
deriving DecidableEq

/-- `isAnswerCorrect(question, answer)` from `server/routes.ts`: dispatch on
`questionType`; case-insensitive id equality for multiple-choice;
lowercased/trimmed equality-or-mutual-containment for short-answer;
`false` for any other tag. -/
def isAnswerCorrect (question : StoredQuestion) (answer : String) : Bool :=
  if question.questionType = "multiple-choice" then
    jsToLower answer == jsToLower question.correctAnswer
  else if question.questionType = "short-answer" then
    let cleanAnswer := jsTrim (jsToLower answer)
    let cleanCorrect := jsTrim (jsToLower question.correctAnswer)
    cleanAnswer == cleanCorrect ||
      jsIncludes cleanCorrect cleanAnswer ||
      jsIncludes cleanAnswer cleanCorrect
  else
    false

/-! ## Course title extraction (`extractCourseTitle` in `gemini.ts`)

`extractCourseTitle` joins the first 10 lines with spaces and matches them
against `/course:?\s*([a-z0-9\s]+)/i`, then `/title:?.../i`, then
`/syllabus:?.../i`.  The regular expressions are modelled exactly:
a leftmost scan for the case-insensitive literal label, an optional colon
(greedy, with backtracking), greedy `\s*`, and a one-or-more capture over
the class `[a-z0-9\s]` (case-insensitive), which backtracks one whitespace
character out of `\s*` when the class would otherwise be empty. -/

/-- Case-insensitive "starts with" for the literal part of the label regex. -/
def startsWithCI : List Char → List Char → Bool
  | [], _ => true
  | _ :: _, [] => false
  | p :: ps, c :: cs => p.toLower == c.toLower && startsWithCI ps cs

/-- Membership in the character class `[a-z0-9\s]` under the `/i` flag. -/
def inTitleClass (c : Char) : Bool :=
  ('a' ≤ c.toLower && c.toLower ≤ 'z') || ('0' ≤ c && c ≤ '9') || c.isWhitespace

/-- Match `\s*([a-z0-9\s]+)` at the start of `s`, returning the capture:
greedy whitespace run, then a non-empty greedy class run; if the class run
would be empty the engine backtracks one whitespace character into the
capture (whitespace belongs to the class). -/
def matchWsCapture (s : List Char) : Option (List Char) :=
  let w := s.takeWhile Char.isWhitespace
  let rest := s.dropWhile Char.isWhitespace
  let r := rest.takeWhile inTitleClass
  if r.isEmpty then
    if w.isEmpty then none else some [w.getLastD ' ']
  else
    some r

/-- Match `:?\s*([a-z0-9\s]+)` at the start of `s` (the part of the label
regex after the literal): the greedy optional colon is tried first, then the
alternative without it. -/
def tailMatch (s : List Char) : Option (List Char) :=
  match s with
  | ':' :: rest => matchWsCapture rest <|> matchWsCapture (':' :: rest)
  | _ => matchWsCapture s

/-- Leftmost match of `label:?\s*([a-z0-9\s]+)` (case-insensitive) against
`text`, returning the capture group of the first position where the whole
pattern matches. -/
def scanLabel (label : List Char) : List Char → Option (List Char)
  | [] => none
  | c :: rest =>
    if startsWithCI label (c :: rest) then
      match tailMatch ((c :: rest).drop label.length) with
      | some cap => some cap
      | none => scanLabel label rest
    else
      scanLabel label rest

/-- `firstLines` of `extractCourseTitle`: `content.split('\n').slice(0,10).join(' ')`. -/
def firstLinesL (content : List Char) : List Char :=
  joinSepL [' '] ((splitChar '\n' content).take 10)

/-- Case-insensitive "ends with" (for the `/\.(pdf|docx|txt)$/i` strip). -/
def endsWithCI (suffixStr : List Char) (s : List Char) : Bool :=
  startsWithCI suffixStr.reverse s.reverse

/-- `filename.replace(/\.(pdf|docx|txt)$/i, '').replace(/_/g, ' ')`. -/
def fallbackTitleL (filename : List Char) : List Char :=
  let stripped :=
    if endsWithCI ".pdf".data filename then filename.take (filename.length - 4)
    else if endsWithCI ".docx".data filename then filename.take (filename.length - 5)
    else if endsWithCI ".txt".data filename then filename.take (filename.length - 4)
    else filename
  stripped.map (fun c => if c = '_' then ' ' else c)

/-- The `||` chain of the three label matches in `extractCourseTitle`. -/
def labelChain (firstLines : List Char) : Option (List Char) :=
  scanLabel "course".data firstLines <|>
    scanLabel "title".data firstLines <|>
      scanLabel "syllabus".data firstLines

/-- `extractCourseTitle(content, filename)` from `gemini.ts` on character
lists: capture of the first label regex that matches, trimmed, when
non-blank; otherwise the filename fallback. -/
def extractCourseTitleL (content filename : List Char) : List Char :=
  match labelChain (firstLinesL content) with
  | some cap => if trimL cap ≠ [] then trimL cap else fallbackTitleL filename
  | none => fallbackTitleL filename

/-- `extractCourseTitle` at the `String` level. -/
def extractCourseTitle (content filename : String) : String :=
  String.mk (extractCourseTitleL content.data filename.data)

/-- Restatement of the specification sentence for the title derivation
("pattern-matching ... returning the first non-empty capture, trimmed; if
none matches, the title is the source filename ..."): the chain keeps
scanning later labels past a label whose capture trims to blank.  Stated
from the spec's words, to be compared with `extractCourseTitle` above. -/
def extractCourseTitleSpec (content filename : String) : String :=
  let fl := firstLinesL content.data
  let caps :=
    [scanLabel "course".data fl, scanLabel "title".data fl,
      scanLabel "syllabus".data fl]
  match caps.filterMap (fun c => c.bind fun cap =>
      if trimL cap ≠ [] then some (trimL cap) else none) with
  | t :: _ => String.mk t
  | [] => String.mk (fallbackTitleL filename.data)

/-! ## Mock exam synthesis (`generateMockExam` in `gemini.ts`) -/

/-- The fixed generic subject areas used when the syllabus yields too few
relevant lines. -/
def subjectAreas : List String :=
  ["Fundamental Concepts", "Key Principles", "Theoretical Frameworks",
   "Application Methods", "Historical Context", "Practical Skills",
   "Core Terminology", "Analysis Techniques"]

/-- `/^\d+\./.test`-style check used by the topic-line filter: the line
starts with one or more digits followed by a dot. -/
def startsWithDigitDot (l : List Char) : Bool :=
  let ds := l.takeWhile Char.isDigit
  !ds.isEmpty && (l.drop ds.length).head? == some '.'

/-- The topic-line filter of `generateMockExam`. -/
def isTopicLine (line : String) : Bool :=
  jsIncludes line "Topic" || jsIncludes line "Learning" ||
    jsIncludes line "Objective" || jsIncludes line "Study" ||
      startsWithDigitDot line.data

/-- The per-index question builder of `generateMockExam`'s loop body. -/
def mkMockQuestion (config : ExamConfig) (relevantLines : List String)
    (i : Nat) : GenQuestion :=
  let baseText :=
    if relevantLines.length > i then relevantLines.getD i ""
    else subjectAreas.getD (i % subjectAreas.length) ""
  let topic :=
    if baseText.length > 30 then jsTrim (jsSlice baseText 30) ++ "..."
    else jsTrim baseText
  let difficulty :=
    if config.difficulty = .mixed then
      (["easy", "medium", "hard"].getD (i % 3) "")
    else config.difficulty.str
  match config.type with
  | .multipleChoice =>
    { content := "Question " ++ toString (i + 1) ++
        ": Which of the following best describes \"" ++ topic ++ "\"?"
      questionType := "multiple-choice"
      options := some
        [⟨"a", "The primary framework for understanding " ++ topic⟩,
         ⟨"b", "A secondary concept related to " ++ topic⟩,
         ⟨"c", "An application method for " ++ topic⟩,
         ⟨"d", "The historical development of " ++ topic⟩]
      correctAnswer := "a"
      topic := topic
      difficulty := difficulty }
  | .shortAnswer =>
    { content := "Question " ++ toString (i + 1) ++
        ": Briefly explain the concept of \"" ++ topic ++
        "\" and its significance."
      questionType := "short-answer"
      options := none
      correctAnswer := topic ++
        " is a fundamental concept that involves understanding the core principles and applying them appropriately in context."
      topic := topic
      difficulty := difficulty }

/-- `generateMockExam(syllabusContent, config, courseTitle)` from
`gemini.ts`: select relevant lines from the (full, untruncated) syllabus,
then deterministically build `config.questionCount` questions. -/
def generateMockExam (syllabusContent : String) (config : ExamConfig)
    (courseTitle : String) : GenExam :=
  let syllabusLines := (splitChar '\n' syllabusContent.data).map String.mk
  let topicLines := syllabusLines.filter isTopicLine
  let relevantLines :=
    if topicLines.length > 10 then topicLines.take 10
    else syllabusLines.take (min syllabusLines.length 20)
  { title := courseTitle ++ " - " ++ capFirst config.difficulty.str ++
      " Difficulty Exam"
    questions := (List.range config.questionCount).map
      (mkMockQuestion config relevantLines) }

/-! ## JSON values and `JSON.parse` (used by `safeJsonParse`)

`JSON.parse` is the platform primitive called by `safeJsonParse`.  It is
modelled by a fuel-indexed recursive-descent parser over the JSON grammar.
Numbers are kept as raw lexemes (no claim depends on numeric values) and the
escape decoding inside strings covers the simple escapes (`\n`, `\t`, `\r`,
`\"`, `\\`, `\/`); this is the only simplification, and no claim touches it. -/

/-- A parsed JSON value (the `any` produced by `JSON.parse`). -/
inductive Json where
  | null
  | bool (b : Bool)
  | num (raw : String)
  | str (s : String)
  | arr (items : List Json)
  | obj (fields : List (String × Json))

/-- JSON insignificant whitespace. -/
def skipJsonWs (l : List Char) : List Char :=
  l.dropWhile (fun c => c == ' ' || c == '\t' || c == '\n' || c == '\r')

/-- Decode a simple escape character inside a JSON string literal. -/
def unescapeChar (c : Char) : Char :=
  match c with
  | 'n' => '\n'
  | 't' => '\t'
  | 'r' => '\r'
  | c => c

/-- Characters admissible in a JSON number lexeme. -/
def isNumChar (c : Char) : Bool :=
  c.isDigit || c == '-' || c == '+' || c == '.' || c == 'e' || c == 'E'

/-- Lex a number lexeme at the head of the input. -/
def parseNumber (l : List Char) : Option (Json × List Char) :=
  let ds := l.takeWhile isNumChar
  if ds.isEmpty then none else some (.num (String.mk ds), l.drop ds.length)

mutual

/-- Parse one JSON value (fuel-indexed). -/
def parseValue : Nat → List Char → Option (Json × List Char)
  | 0, _ => none
  | fuel + 1, l =>
    match skipJsonWs l with
    | '{' :: rest =>
      match skipJsonWs rest with
      | '}' :: rest2 => some (.obj [], rest2)
      | _ => (parseMembers fuel rest).map fun p => (.obj p.1, p.2)
    | '[' :: rest =>
      match skipJsonWs rest with
      | ']' :: rest2 => some (.arr [], rest2)
      | _ => (parseElems fuel rest).map fun p => (.arr p.1, p.2)
    | '"' :: rest => (parseStringBody fuel rest).map fun p => (.str p.1, p.2)
    | 't' :: 'r' :: 'u' :: 'e' :: rest => some (.bool true, rest)
    | 'f' :: 'a' :: 'l' :: 's' :: 'e' :: rest => some (.bool false, rest)
    | 'n' :: 'u' :: 'l' :: 'l' :: rest => some (.null, rest)
    | c :: rest =>
      if c.isDigit || c == '-' then parseNumber (c :: rest) else none
    | [] => none

/-- Parse the members of a non-empty JSON object, after the `{`. -/
def parseMembers : Nat → List Char → Option (List (String × Json) × List Char)
  | 0, _ => none
  | fuel + 1, l =>
    match skipJsonWs l with
    | '"' :: rest =>
      match parseStringBody fuel rest with
      | none => none
      | some (key, r1) =>
        match skipJsonWs r1 with
        | ':' :: r2 =>
          match parseValue fuel r2 with
          | none => none
          | some (v, r3) =>
            match skipJsonWs r3 with
            | ',' :: r4 => (parseMembers fuel r4).map fun p => ((key, v) :: p.1, p.2)
            | '}' :: r4 => some ([(key, v)], r4)
            | _ => none
        | _ => none
    | _ => none

/-- Parse the elements of a non-empty JSON array, after the `[`. -/
def parseElems : Nat → List Char → Option (List Json × List Char)
  | 0, _ => none
  | fuel + 1, l =>
    match parseValue fuel l with
    | none => none
    | some (v, r1) =>
      match skipJsonWs r1 with
      | ',' :: r2 => (parseElems fuel r2).map fun p => (v :: p.1, p.2)
      | ']' :: r2 => some ([v], r2)
      | _ => none

/-- Parse a JSON string body after the opening quote. -/
def parseStringBody : Nat → List Char → Option (String × List Char)
  | 0, _ => none
  | fuel + 1, l =>
    match l with
    | '"' :: rest => some ("", rest)
    | '\\' :: c :: rest =>
      (parseStringBody fuel rest).map fun p => (String.mk [unescapeChar c] ++ p.1, p.2)
    | c :: rest =>
      (parseStringBody fuel rest).map fun p => (String.mk [c] ++ p.1, p.2)
    | [] => none

end

/-- `JSON.parse(s)`: parse a value, require only whitespace to follow.  The
fuel `2 * s.length + 2` is generous: running out of fuel can only make a
well-formed input fail, never accept a malformed one, and it never runs out
on inputs of this length. -/
def jsonParse (s : String) : Option Json :=
  match parseValue (2 * s.length + 2) s.data with
  | some (j, rest) => if (skipJsonWs rest).isEmpty then some j else none
  | none => none

/-- `safeJsonParse(jsonString)` from `gemini.ts`: the empty (falsy) string
yields `{}`, a parse failure is caught and yields `{}`, otherwise the parsed
value is returned. -/
def safeJsonParse (s : String) : Json :=
  if s = "" then Json.obj []
  else
    match jsonParse s with
    | some j => j
    | none => Json.obj []

/-! ## Exam generation (`generateExam` in `gemini.ts`) -/

/-- `responseText.match(/\{[\s\S]*\}/)`: the region from the first `{` to
the last `}` when the latter occurs after the former (the quantifier is
greedy, so the match runs to the *last* closing brace), else no match. -/
def extractBrace (l : List Char) : Option (List Char) :=
  let af := l.dropWhile (fun c => c != '{')
  let cand := (af.reverse.dropWhile (fun c => c != '}')).reverse
  if 2 ≤ cand.length then some cand else none

/-- `jsonMatch ? jsonMatch[0] : "{}"` from `generateExam`. -/
def jsonContentOf (responseText : String) : String :=
  match extractBrace responseText.data with
  | some region => String.mk region
  | none => "{}"

/-- The truncation `syllabusContent.substring(0, 15000)` applied when
building the generation prompt. -/
def truncatedSyllabus (s : String) : String := jsSlice s 15000

/-- The prompt template literal of `generateExam` (lines of the template,
with the interpolated configuration values; literal braces of the JSON
example are written with hex escapes). -/
def buildExamPrompt (syllabusContent : String) (config : ExamConfig) : String :=
  "\n      You are an expert educator creating exam questions based on course content.\n      \n      Course syllabus content:\n      " ++
  truncatedSyllabus syllabusContent ++
  " // Limit content to avoid token limits\n      \n      Exam configuration:\n      - Type: " ++
  config.type.str ++
  "\n      - Number of questions: " ++
  toString config.questionCount ++
  "\n      - Difficulty: " ++
  config.difficulty.str ++
  "\n      " ++
  (match config.timeLimit with
   | some t => "- Time limit: " ++ toString t ++ " minutes"
   | none => "") ++
  "\n      \n      Create an exam with " ++
  toString config.questionCount ++ " " ++ config.type.str ++
  " questions based on the syllabus content.\n      \n      Guidelines:\n      - Create questions that test understanding, not just memorization\n      - For multiple-choice, create 4 options per question with only one correct answer\n      - For short-answer, provide a concise model answer\n      - Make sure all questions are directly based on the syllabus content\n      - Cover a broad range of content from the syllabus\n      - For " ++
  config.difficulty.str ++
  " difficulty level, adjust complexity accordingly\n      \n      Return a JSON object with the following structure:\n      \x7b\n        \"title\": \"Exam title based on the course\", \n        \"questions\": [\n          // For multiple-choice questions:\n          \x7b\n            \"content\": \"Question text\",\n            \"questionType\": \"multiple-choice\",\n            \"options\": [\x7b\"id\": \"a\", \"text\": \"option text\"\x7d, ...],\n            \"correctAnswer\": \"a\", // The ID of the correct option\n            \"topic\": \"Topic name\",\n            \"difficulty\": \"easy|medium|hard\"\n          \x7d,\n          // For short-answer questions:\n          \x7b\n            \"content\": \"Question text\",\n            \"questionType\": \"short-answer\",\n            \"correctAnswer\": \"Model answer\",\n            \"topic\": \"Topic name\",\n            \"difficulty\": \"easy|medium|hard\"\n          \x7d\n        ]\n      \x7d\n      \n      Return ONLY the JSON object without any other text or explanation.\n    "

/-- Outcome of `generateExam`: either the value parsed from the model
response (returned as-is, whatever its shape), or a mock exam. -/
inductive GenResult where
  | parsed (value : Json)
  | mocked (exam : GenExam)

/-- `generateExam(syllabusContent, config, filename)` from `gemini.ts`.
The one effect — the backend call `model.generateContent` together with
`result.response.text()` — is passed in explicitly as `modelResponse`
(`.ok text` when the call returns, `.error ()` when it throws).  On a
backend failure the inner `catch` returns `generateMockExam`; on a backend
success the extracted brace region is parsed with `safeJsonParse` and the
resulting value is returned directly.  The outer `catch` is unreachable:
everything before the inner `try` is the pure `extractCourseTitle`. -/
def generateExam (syllabusContent : String) (config : ExamConfig)
    (filename : String) (modelResponse : Except Unit String) : GenResult :=
  let courseTitle := extractCourseTitle syllabusContent filename
  match modelResponse with
  | .error _ => .mocked (generateMockExam syllabusContent config courseTitle)
  | .ok responseText => .parsed (safeJsonParse (jsonContentOf responseText))

/-- Whether a parsed JSON value has the `Exam` interface shape of
`gemini.ts` (a string `title` and an array `questions`); used to state that
`generateExam` can return a non-`Exam` value. -/
def isExamShapedJson (j : Json) : Bool :=
  match j with
  | .obj fields =>
    (match (fields.find? (fun kv => kv.1 == "title")).map Prod.snd with
     | some (.str _) => true
     | _ => false) &&
    (match (fields.find? (fun kv => kv.1 == "questions")).map Prod.snd with
     | some (.arr _) => true
     | _ => false)
  | _ => false

/-! ## Storage and the attempt / answer routes (`server/routes.ts`)

The database tables the two routes touch are modelled as lists inside a
`Storage` record, and each route is a function from a `Storage` (plus the
request data and the completion timestamp) to a response paired with the
new `Storage`. -/

/-- An `exam_attempts` row (the fields the routes read and write). -/
structure ExamAttempt where
  id : Nat
  examId : Nat
  score : Option Nat
  maxScore : Nat
  completedAt : Option Nat
deriving DecidableEq

/-- An `answers` row as inserted by the submission route. -/
structure AnswerRow where
  attemptId : Nat
  questionId : Nat
  answer : String
  isCorrect : Bool
deriving DecidableEq

/-- The persistent state visible to the modelled routes. -/
structure Storage where
  exams : List Nat
  questions : List StoredQuestion
  attempts : List ExamAttempt
  answerRows : List AnswerRow
deriving DecidableEq

/-- `storage.getExamAttempt(id)`. -/
def getExamAttempt (st : Storage) (id : Nat) : Option ExamAttempt :=
  st.attempts.find? (fun a => a.id == id)

/-- `storage.getQuestionsByExamId(examId)`. -/
def getQuestionsByExamId (st : Storage) (examId : Nat) : List StoredQuestion :=
  st.questions.filter (fun q => q.examId == examId)

/-- `questionsMap.get(id)` where `questionsMap = new Map(questions.map(q =>
[q.id, q]))`: on duplicate keys a JavaScript `Map` keeps the last insertion,
hence the lookup scans from the back. -/
def mapGet (qs : List StoredQuestion) (qid : Nat) : Option StoredQuestion :=
  qs.reverse.find? (fun q => q.id == qid)

/-- `storage.createAnswer` (a database insert appends a row). -/
def createAnswer (st : Storage) (row : AnswerRow) : Storage :=
  { st with answerRows := st.answerRows ++ [row] }

/-- `storage.completeExamAttempt(id, score)`: set `completedAt` to the
current time and record the score on the matching row. -/
def completeExamAttempt (st : Storage) (id : Nat) (score : Nat) (now : Nat) :
    Storage :=
  { st with attempts := st.attempts.map fun a =>
      if a.id == id then { a with completedAt := some now, score := some score }
      else a }

/-- One entry of the submitted answer batch (`{questionId, answer}`). -/
structure AnswerSubmission where
  questionId : Nat
  answer : String
deriving DecidableEq

/-- Response of `POST /api/attempts/:id/answers`. -/
inductive SubmitResponse where
  | notFound
  | alreadyCompleted
  | unknownQuestion (questionId : Nat)
  | ok (score : Nat) (maxScore : Nat)
deriving DecidableEq

/-- The `for (const answerData of answers)` loop of the submission route:
look each entry up in the questions map; an unknown id returns the 400
response immediately, *keeping every answer row already inserted*; a known
id is graded, counted, and persisted. -/
def gradeLoop (attemptId : Nat) (qs : List StoredQuestion) :
    List AnswerSubmission → Nat → Storage →
      (Except (Nat × Storage) (Nat × Storage))
  | [], score, st => .ok (score, st)
  | a :: rest, score, st =>
    match mapGet qs a.questionId with
    | none => .error (a.questionId, st)
    | some q =>
      let isCorrect := isAnswerCorrect q a.answer
      let st2 := createAnswer st
        ⟨attemptId, a.questionId, a.answer, isCorrect⟩
      gradeLoop attemptId qs rest (if isCorrect then score + 1 else score) st2

/-- `POST /api/attempts/:id/answers` from `server/routes.ts`: resolve the
attempt (404 when absent, 400 when already completed), grade the batch,
then complete the attempt with the accumulated score; the success response
reports the score and the attempt's stored `maxScore`. -/
def submitAnswers (st : Storage) (attemptId : Nat)
    (batch : List AnswerSubmission) (now : Nat) : SubmitResponse × Storage :=
  match getExamAttempt st attemptId with
  | none => (.notFound, st)
  | some attempt =>
    if attempt.completedAt.isSome then (.alreadyCompleted, st)
    else
      let questions := getQuestionsByExamId st attempt.examId
      match gradeLoop attempt.id questions batch 0 st with
      | .error (qid, st2) => (.unknownQuestion qid, st2)
      | .ok (score, st2) =>
        (.ok score attempt.maxScore, completeExamAttempt st2 attempt.id score now)

/-- `POST /api/exams/:id/attempts` from `server/routes.ts`: 404 when the
exam is absent; otherwise create an attempt whose `maxScore` is the number
of questions the exam has at this moment.  `newId` stands for the id the
database assigns to the inserted row. -/
def startAttempt (st : Storage) (examId : Nat) (newId : Nat) :
    Option ExamAttempt × Storage :=
  if st.exams.contains examId then
    let attempt : ExamAttempt :=
      { id := newId, examId := examId, score := none
        maxScore := (getQuestionsByExamId st examId).length
        completedAt := none }
    (some attempt, { st with attempts := st.attempts ++ [attempt] })
  else (none, st)

/-- The answer rows the loop inserts for a batch whose entries all resolve:
each entry paired with its graded correctness. -/
def gradedRows (attemptId : Nat) (qs : List StoredQuestion)
    (batch : List AnswerSubmission) : List AnswerRow :=
  batch.filterMap fun e => (mapGet qs e.questionId).map fun q =>
    ⟨attemptId, e.questionId, e.answer, isAnswerCorrect q e.answer⟩

/-- The number of batch entries the loop grades as correct. -/
def countCorrect (qs : List StoredQuestion)
    (batch : List AnswerSubmission) : Nat :=
  (batch.filter fun e =>
    match mapGet qs e.questionId with
    | some q => isAnswerCorrect q e.answer
    | none => false).length

/-! ## Concrete fixtures used to instantiate the theorems -/

/-- A stored multiple-choice question with correct option `"a"`. -/
def exQuestion : StoredQuestion :=
  ⟨1, 1, "multiple-choice",
    some [⟨"a", "The primary framework"⟩, ⟨"b", "A secondary concept"⟩], "a"⟩

/-- A stored short-answer question keyed on `"photosynthesis"`. -/
def exShortAnswerQ : StoredQuestion :=
  ⟨2, 1, "short-answer", none, "photosynthesis"⟩

/-- A storage state with one exam, one question, and one open attempt
(`maxScore` recorded as the question count `1`). -/
def exStorage : Storage :=
  ⟨[1], [exQuestion], [⟨5, 1, none, 1, none⟩], []⟩

/-- The same storage with the attempt already completed. -/
def exStorageDone : Storage :=
  ⟨[1], [exQuestion], [⟨5, 1, some 1, 1, some 3⟩], []⟩

/-- A small exam configuration. -/
def mockCfg : ExamConfig := ⟨.multipleChoice, 3, .mixed, [], none⟩

/-- 15000 characters of filler: a syllabus that fills the truncation window
exactly. -/
def bigBlock : List Char := List.replicate 15000 'a'

/-- A syllabus that is exactly the truncation window. -/
def bigSyllabus1 : String := String.mk bigBlock

/-- The same syllabus extended past the truncation boundary with a line
carrying a course label. -/
def bigSyllabus2 : String := String.mk (bigBlock ++ '\n' :: "course: b".data)

/-! ## Helper lemmas -/

/-- ASCII lowercasing sends whitespace to whitespace. -/
theorem toLower_isWhitespace {c : Char} (h : c.isWhitespace) :
    c.toLower.isWhitespace := by
  have hc : c = ' ' ∨ c = '\t' ∨ c = '\r' ∨ c = '\n' := by
    revert h
    simp [Char.isWhitespace]
    tauto
  rcases hc with h | h | h | h <;> subst h <;> decide

/-- Trimming an all-whitespace character list yields the empty list. -/
theorem trimL_eq_nil {l : List Char} (h : ∀ c ∈ l, c.isWhitespace) :
    trimL l = [] := by
  unfold trimL
  have h1 : l.dropWhile Char.isWhitespace = [] :=
    List.dropWhile_eq_nil_iff.mpr h
  rw [h1]
  rfl

/-- Unfolding of the short-answer branch of `isAnswerCorrect` (helper shared
by several theorems below). -/
theorem short_answer_grading_iff (q : StoredQuestion) (ans : String)
    (h : q.questionType = "short-answer") :
    isAnswerCorrect q ans = true ↔
      (jsTrim (jsToLower ans) = jsTrim (jsToLower q.correctAnswer) ∨
        (jsTrim (jsToLower ans)).data <:+:
          (jsTrim (jsToLower q.correctAnswer)).data ∨
        (jsTrim (jsToLower q.correctAnswer)).data <:+:
          (jsTrim (jsToLower ans)).data) := by
  have hne : q.questionType ≠ "multiple-choice" := by rw [h]; decide
  simp [isAnswerCorrect, h, hne, jsIncludes]
  tauto

/-! ## C3 — short-answer grading rule -/

/-- C3: for every short-answer question and submitted answer, grading
returns `true` iff, after lowercasing and trimming both strings, the
cleaned answer equals the cleaned key, or either contains the other as a
substring; otherwise `false`. -/
theorem isAnswerCorrect_short_answer_iff (q : StoredQuestion) (ans : String)
    (h : q.questionType = "short-answer") :
    isAnswerCorrect q ans = true ↔
      (jsTrim (jsToLower ans) = jsTrim (jsToLower q.correctAnswer) ∨
        (jsTrim (jsToLower ans)).data <:+:
          (jsTrim (jsToLower q.correctAnswer)).data ∨
        (jsTrim (jsToLower q.correctAnswer)).data <:+:
          (jsTrim (jsToLower ans)).data) :=
  short_answer_grading_iff q ans h

/-- Witness for C3 at a concrete question and answers. -/
theorem isAnswerCorrect_short_answer_iff_witness :
    isAnswerCorrect exShortAnswerQ "the process of Photosynthesis" = true ∧
    isAnswerCorrect exShortAnswerQ "respiration" = false := by
  constructor
  · exact (isAnswerCorrect_short_answer_iff exShortAnswerQ _ rfl).mpr
      (Or.inr (Or.inr (by decide)))
  · have := (isAnswerCorrect_short_answer_iff exShortAnswerQ "respiration" rfl)
    rw [Bool.eq_false_iff]
    intro hc
    rcases this.mp hc with h | h | h <;> revert h <;> decide

/-! ## C4 — multiple-choice grading rule -/

/-- C4: multiple-choice grading returns `true` iff the submitted option id
equals the question's `correctAnswer` case-insensitively, and an empty
submitted id is graded incorrect whenever `correctAnswer` is non-empty. -/
theorem isAnswerCorrect_multiple_choice_iff (q : StoredQuestion) (ans : String)
    (h : q.questionType = "multiple-choice") :
    (isAnswerCorrect q ans = true ↔ jsToLower ans = jsToLower q.correctAnswer) ∧
    (q.correctAnswer ≠ "" → isAnswerCorrect q "" = false) := by
  constructor
  · simp [isAnswerCorrect, h]
  · intro hne
    rw [Bool.eq_false_iff]
    intro hc
    have heq : jsToLower "" = jsToLower q.correctAnswer := by
      simpa [isAnswerCorrect, h] using hc
    have hdata : ([] : List Char).map Char.toLower =
        q.correctAnswer.data.map Char.toLower := congrArg String.data heq
    have hnil : q.correctAnswer.data = [] := by
      simpa using hdata.symm
    apply hne
    have he : q.correctAnswer = String.mk q.correctAnswer.data := rfl
    rw [he, hnil]

/-- Witness for C4 at a concrete question (`correctAnswer = "a"`). -/
theorem isAnswerCorrect_multiple_choice_iff_witness :
    isAnswerCorrect exQuestion "A" = true ∧
    isAnswerCorrect exQuestion "b" = false ∧
    isAnswerCorrect exQuestion "" = false := by
  refine ⟨?_, ?_, ?_⟩
  · exact (isAnswerCorrect_multiple_choice_iff exQuestion "A" rfl).1.mpr
      (by decide)
  · have := (isAnswerCorrect_multiple_choice_iff exQuestion "b" rfl).1
    rw [Bool.eq_false_iff]
    intro hc
    exact absurd (this.mp hc) (by decide)
  · exact (isAnswerCorrect_multiple_choice_iff exQuestion "" rfl).2 (by decide)

/-! ## C9 — a blank short answer is always graded correct -/

/-- C9: for every short-answer question, a submitted answer consisting only
of whitespace (in particular the empty string) is graded correct, because
the empty cleaned answer is a substring of every cleaned key. -/
theorem isAnswerCorrect_blank_short_answer (q : StoredQuestion) (ans : String)
    (h : q.questionType = "short-answer")
    (hblank : ∀ c ∈ ans.data, c.isWhitespace) :
    isAnswerCorrect q ans = true := by
  have hclean : (jsTrim (jsToLower ans)).data = [] := by
    show trimL ((jsToLower ans).data) = []
    apply trimL_eq_nil
    intro c hc
    simp only [jsToLower] at hc
    obtain ⟨c0, hc0, rfl⟩ := List.mem_map.mp hc
    exact toLower_isWhitespace (hblank c0 hc0)
  rw [short_answer_grading_iff q ans h]
  refine Or.inr (Or.inl ?_)
  rw [hclean]
  exact ⟨[], (jsTrim (jsToLower q.correctAnswer)).data, by simp⟩

/-- Witness for C9: a whitespace-only submission against the concrete
short-answer question. -/
theorem isAnswerCorrect_blank_short_answer_witness :
    isAnswerCorrect exShortAnswerQ "   " = true :=
  isAnswerCorrect_blank_short_answer exShortAnswerQ "   " rfl (by decide)

/-! ## C10 — a completed attempt cannot be re-graded -/

/-- C10: submitting any answer batch against an attempt whose `completedAt`
is set is rejected before any grading occurs and leaves the whole storage
state — the attempt's score, `maxScore`, and the persisted answers —
unchanged. -/
theorem submitAnswers_completed_attempt (st : Storage) (attemptId now : Nat)
    (batch : List AnswerSubmission) (a : ExamAttempt)
    (h1 : getExamAttempt st attemptId = some a)
    (h2 : a.completedAt.isSome) :
    submitAnswers st attemptId batch now = (.alreadyCompleted, st) := by
  unfold submitAnswers
  rw [h1]
  simp [h2]

/-- Witness for C10 against the concrete completed attempt. -/
theorem submitAnswers_completed_attempt_witness :
    submitAnswers exStorageDone 5 [⟨1, "a"⟩] 9 =
      (.alreadyCompleted, exStorageDone) :=
  submitAnswers_completed_attempt exStorageDone 5 9 [⟨1, "a"⟩]
    ⟨5, 1, some 1, 1, some 3⟩ rfl rfl

/-! ## The grading loop, characterised -/

/-- When an unknown `questionId` appears after a resolvable prefix, the loop
stops with the 400 payload but keeps the answer rows already inserted for
the prefix. -/
theorem gradeLoop_append_error (aid : Nat) (qs : List StoredQuestion)
    (pre : List AnswerSubmission) (bad : AnswerSubmission)
    (rest : List AnswerSubmission)
    (hpre : ∀ e ∈ pre, (mapGet qs e.questionId).isSome)
    (hbad : mapGet qs bad.questionId = none) :
    ∀ score st, gradeLoop aid qs (pre ++ bad :: rest) score st =
      .error (bad.questionId,
        { st with answerRows := st.answerRows ++ gradedRows aid qs pre }) := by
  induction pre with
  | nil =>
    intro score st
    simp [gradeLoop, hbad, gradedRows]
  | cons e pre ih =>
    intro score st
    obtain ⟨q, hq⟩ := Option.isSome_iff_exists.mp (hpre e (by simp))
    simp only [List.cons_append, gradeLoop, hq, List.append_eq]
    rw [ih (fun x hx => hpre x (by simp [hx]))]
    simp [createAnswer, gradedRows, hq]

/-- When every entry of the batch resolves, the loop inserts one graded row
per entry and adds the number of correct entries to the running score. -/
theorem gradeLoop_all_found (aid : Nat) (qs : List StoredQuestion)
    (batch : List AnswerSubmission)
    (h : ∀ e ∈ batch, (mapGet qs e.questionId).isSome) :
    ∀ score st, gradeLoop aid qs batch score st =
      .ok (score + countCorrect qs batch,
        { st with answerRows := st.answerRows ++ gradedRows aid qs batch }) := by
  induction batch with
  | nil =>
    intro score st
    simp [gradeLoop, countCorrect, gradedRows]
  | cons e rest ih =>
    intro score st
    obtain ⟨q, hq⟩ := Option.isSome_iff_exists.mp (h e (by simp))
    simp only [gradeLoop, hq]
    rw [ih (fun x hx => h x (by simp [hx]))]
    by_cases hc : isAnswerCorrect q e.answer
    · simp [hc, countCorrect, gradedRows, hq, createAnswer, List.filter_cons,
        List.append_assoc]
      omega
    · simp [hc, countCorrect, gradedRows, hq, createAnswer, List.filter_cons,
        List.append_assoc]

/-! ## C2 — batch validation is *not* atomic on persisted answers -/

/-- C2 counterexample: a batch whose second entry has an unknown
`questionId` is rejected with the validation error, yet the first entry's
answer row has already been persisted — the resulting `answers` table
differs from the original one, refuting "no answers from that batch are
persisted". -/
theorem submitAnswers_partial_persist_counterexample :
    (submitAnswers exStorage 5 [⟨1, "a"⟩, ⟨99, "a"⟩] 0).1 =
      .unknownQuestion 99 ∧
    (submitAnswers exStorage 5 [⟨1, "a"⟩, ⟨99, "a"⟩] 0).2.answerRows =
      [⟨5, 1, "a", true⟩] ∧
    (submitAnswers exStorage 5 [⟨1, "a"⟩, ⟨99, "a"⟩] 0).2.answerRows ≠
      exStorage.answerRows := by
  refine ⟨?_, ?_, ?_⟩ <;> decide

/-- C2 as amended: a batch containing an unknown `questionId` is rejected
with a validation error naming the first offending id, and the attempt's
row (score, `completedAt`, `maxScore`) is unchanged — but the graded answer
rows of the entries *preceding* the first unknown id are persisted; the
rejection is not atomic over the `answers` table. -/
theorem submitAnswers_invalid_batch_behavior (st : Storage)
    (attemptId now : Nat) (a : ExamAttempt)
    (pre rest : List AnswerSubmission) (bad : AnswerSubmission)
    (h1 : getExamAttempt st attemptId = some a)
    (h2 : a.completedAt = none)
    (hpre : ∀ e ∈ pre,
      (mapGet (getQuestionsByExamId st a.examId) e.questionId).isSome)
    (hbad : mapGet (getQuestionsByExamId st a.examId) bad.questionId = none) :
    (submitAnswers st attemptId (pre ++ bad :: rest) now).1 =
        .unknownQuestion bad.questionId ∧
    (submitAnswers st attemptId (pre ++ bad :: rest) now).2.attempts =
        st.attempts ∧
    (submitAnswers st attemptId (pre ++ bad :: rest) now).2.answerRows =
      st.answerRows ++
        gradedRows a.id (getQuestionsByExamId st a.examId) pre := by
  have hloop := gradeLoop_append_error a.id
    (getQuestionsByExamId st a.examId) pre bad rest hpre hbad 0 st
  unfold submitAnswers
  rw [h1]
  simp [h2, hloop]

/-- Witness for C2's amended statement at the concrete storage. -/
theorem submitAnswers_invalid_batch_behavior_witness :
    (submitAnswers exStorage 5 ([⟨1, "b"⟩] ++ ⟨99, "a"⟩ :: []) 0).1 =
        .unknownQuestion 99 ∧
    (submitAnswers exStorage 5 ([⟨1, "b"⟩] ++ ⟨99, "a"⟩ :: []) 0).2.attempts =
        exStorage.attempts ∧
    (submitAnswers exStorage 5 ([⟨1, "b"⟩] ++ ⟨99, "a"⟩ :: []) 0).2.answerRows =
      exStorage.answerRows ++
        gradedRows 5 (getQuestionsByExamId exStorage 1) [⟨1, "b"⟩] :=
  submitAnswers_invalid_batch_behavior exStorage 5 0 ⟨5, 1, none, 1, none⟩
    [⟨1, "b"⟩] [] ⟨99, "a"⟩ rfl rfl (by decide) (by decide)

/-! ## C5 — score accounting and its bounds -/

/-- C5 counterexample: a batch that repeats the same (correctly answered)
`questionId` twice is graded twice, producing `score = 2` against
`maxScore = 1`; the bound `score ≤ maxScore` fails for batches with
duplicate question ids. -/
theorem submitAnswers_score_exceeds_maxScore_counterexample :
    (submitAnswers exStorage 5 [⟨1, "a"⟩, ⟨1, "a"⟩] 0).1 =
      .ok 2 1 ∧ ¬(2 ≤ 1) := by
  refine ⟨?_, ?_⟩ <;> decide

/-- C5 as amended: the attempt-creation route records `maxScore` as the
exam's question count at creation time; a fully resolvable graded batch
reports `score` equal to the number of entries graded correct together with
the attempt's stored `maxScore`; `0 ≤ score` always holds (it is a count),
and `score ≤ maxScore` holds provided the batch's question ids are pairwise
distinct (with duplicates it can fail, as the counterexample shows). -/
theorem submitAnswers_score_bounds (st : Storage) (attemptId now : Nat)
    (a : ExamAttempt) (batch : List AnswerSubmission)
    (h1 : getExamAttempt st attemptId = some a)
    (h2 : a.completedAt = none)
    (hall : ∀ e ∈ batch,
      (mapGet (getQuestionsByExamId st a.examId) e.questionId).isSome)
    (hmax : a.maxScore = (getQuestionsByExamId st a.examId).length)
    (hnodup : (batch.map AnswerSubmission.questionId).Nodup) :
    (submitAnswers st attemptId batch now).1 =
      .ok (countCorrect (getQuestionsByExamId st a.examId) batch) a.maxScore ∧
    countCorrect (getQuestionsByExamId st a.examId) batch ≤ a.maxScore ∧
    (∀ (st2 : Storage) (examId newId : Nat) (att : ExamAttempt),
      (startAttempt st2 examId newId).1 = some att →
        att.maxScore = (getQuestionsByExamId st2 examId).length) := by
  set qs := getQuestionsByExamId st a.examId with hqs
  refine ⟨?_, ?_, ?_⟩
  · have hloop := gradeLoop_all_found a.id qs batch hall 0 st
    unfold submitAnswers
    rw [h1]
    simp [h2, ← hqs, hloop]
  · have hcount : countCorrect qs batch ≤ batch.length := by
      unfold countCorrect
      exact List.length_filter_le _ _
    have hsub : (batch.map AnswerSubmission.questionId) ⊆
        qs.map StoredQuestion.id := by
      intro n hn
      obtain ⟨e, he, rfl⟩ := List.mem_map.mp hn
      obtain ⟨q, hq⟩ := Option.isSome_iff_exists.mp (hall e he)
      have hqmem : q ∈ qs := List.mem_reverse.mp (List.mem_of_find?_eq_some hq)
      have hqid : q.id = e.questionId := by
        have := List.find?_some hq
        simpa using this
      rw [← hqid]
      exact List.mem_map_of_mem _ hqmem
    have hperm := (List.Nodup.subperm hnodup hsub).length_le
    rw [List.length_map, List.length_map] at hperm
    calc countCorrect qs batch ≤ batch.length := hcount
      _ ≤ qs.length := hperm
      _ = a.maxScore := hmax.symm
  · intro st2 examId newId att hatt
    unfold startAttempt at hatt
    by_cases hm : examId ∈ st2.exams
    · simp [hm] at hatt
      rw [← hatt]
    · simp [hm] at hatt

/-- Witness for C5's amended statement at the concrete storage. -/
theorem submitAnswers_score_bounds_witness :
    (submitAnswers exStorage 5 [⟨1, "a"⟩] 0).1 =
      .ok (countCorrect (getQuestionsByExamId exStorage 1) [⟨1, "a"⟩]) 1 ∧
    countCorrect (getQuestionsByExamId exStorage 1) [⟨1, "a"⟩] ≤ 1 := by
  have h := submitAnswers_score_bounds exStorage 5 0 ⟨5, 1, none, 1, none⟩
    [⟨1, "a"⟩] rfl rfl (by decide) (by decide) (by decide)
  exact ⟨h.1, h.2.1⟩

/-! ## C6 — shape of the deterministic mock exam -/

/-- C6: the mock exam always has exactly `config.questionCount` questions,
every question's type tag matches the configured type, every multiple-choice
mock question marks option `"a"` correct with the "primary framework"
phrasing as its first option, and the `i`-th question's difficulty cycles
`easy, medium, hard` by `i % 3` when the configured difficulty is `mixed`
and is the configured difficulty otherwise. -/
theorem generateMockExam_shape (s : String) (config : ExamConfig)
    (t : String) :
    (generateMockExam s config t).questions.length = config.questionCount ∧
    (∀ q ∈ (generateMockExam s config t).questions,
      q.questionType = config.type.str) ∧
    (config.type = .multipleChoice →
      ∀ q ∈ (generateMockExam s config t).questions,
        q.correctAnswer = "a" ∧
        (q.options.getD []).head? =
          some ⟨"a", "The primary framework for understanding " ++ q.topic⟩) ∧
    (∀ i q, (generateMockExam s config t).questions.get? i = some q →
      q.difficulty =
        if config.difficulty = .mixed
        then ["easy", "medium", "hard"].getD (i % 3) ""
        else config.difficulty.str) := by
  refine ⟨?_, ?_, ?_, ?_⟩
  · simp [generateMockExam]
  · intro q hq
    simp only [generateMockExam, List.mem_map, List.mem_range] at hq
    obtain ⟨i, _, rfl⟩ := hq
    cases htype : config.type <;> simp [mkMockQuestion, htype, ExamType.str]
  · intro htype q hq
    simp only [generateMockExam, List.mem_map, List.mem_range] at hq
    obtain ⟨i, _, rfl⟩ := hq
    simp [mkMockQuestion, htype]
  · intro i q hq
    simp only [generateMockExam, List.get?_map] at hq
    cases hr : (List.range config.questionCount).get? i with
    | none => rw [hr] at hq; simp at hq
    | some j =>
      rw [hr] at hq
      have hij : j = i := by
        have := List.get?_eq_some.mp hr
        obtain ⟨hlt, hget⟩ := this
        simpa [List.get_range] using hget.symm
      subst hij
      simp only [Option.map_some'] at hq
      cases hq
      cases htype : config.type <;>
        by_cases hd : config.difficulty = .mixed <;>
          simp [mkMockQuestion, htype, hd]

/-- Witness for C6 at a concrete syllabus and configuration (3 questions,
multiple-choice, mixed difficulty). -/
theorem generateMockExam_shape_witness :
    (generateMockExam "Topic A" mockCfg "T").questions.length = 3 ∧
    ((generateMockExam "Topic A" mockCfg "T").questions.getD 1
        default).difficulty = "medium" := by
  have h := generateMockExam_shape "Topic A" mockCfg "T"
  refine ⟨h.1, ?_⟩
  have h4 := h.2.2.2 1
    ((generateMockExam "Topic A" mockCfg "T").questions.getD 1 default)
    (by decide)
  simpa [mockCfg] using h4

/-! ## C1 — the fallback covers backend failure, but not malformed output -/

/-- C1 counterexample: when the backend call *succeeds* but returns prose
with no JSON object in it, `generateExam` returns the parsed empty object
`{}` — a value that is not the mock exam `generateMockExam` would produce
and does not have the `Exam` shape at all.  The mock fallback is only taken
on a backend-call failure, refuting "on any internal failure, including a
malformed (unparseable) model response, it returns the deterministic mock
exam". -/
theorem generateExam_malformed_counterexample :
    generateExam "Topic A" mockCfg "f.txt"
        (.ok "the model replied with prose") = .parsed (Json.obj []) ∧
    GenResult.parsed (Json.obj []) ≠
      .mocked (generateMockExam "Topic A" mockCfg
        (extractCourseTitle "Topic A" "f.txt")) ∧
    isExamShapedJson (Json.obj []) = false := by
  refine ⟨rfl, ?_, rfl⟩
  intro h
  exact GenResult.noConfusion h

/-- C1 as amended: `generateExam` never propagates an error, and on a
backend-call failure it returns exactly the mock exam built by
`generateMockExam`; but on a backend success the value parsed from the
brace region of the response is returned as-is — in particular, a response
containing no brace region yields the empty JSON object, not the mock
exam. -/
theorem generateExam_fallback_behavior (s : String) (config : ExamConfig)
    (f : String) :
    generateExam s config f (.error ()) =
      .mocked (generateMockExam s config (extractCourseTitle s f)) ∧
    (∀ t, generateExam s config f (.ok t) =
      .parsed (safeJsonParse (jsonContentOf t))) ∧
    (∀ t, extractBrace t.data = none →
      generateExam s config f (.ok t) = .parsed (Json.obj [])) := by
  refine ⟨rfl, fun t => rfl, fun t h => ?_⟩
  show GenResult.parsed (safeJsonParse (jsonContentOf t)) = _
  rw [jsonContentOf, h]
  rfl

/-- Witness for C1's amended statement: a brace-free response yields the
empty object. -/
theorem generateExam_fallback_behavior_witness :
    generateExam "Topic A" mockCfg "f.txt" (.ok "plain text, no braces") =
      .parsed (Json.obj []) :=
  (generateExam_fallback_behavior "Topic A" mockCfg "f.txt").2.2
    "plain text, no braces" rfl

/-! ## C8 — title derivation: first *matching* label, not first non-empty
capture -/

/-- C8 counterexample: on `"course: @ title: Algebra"` the `course:` regex
matches with a whitespace-only capture (the capture class contains `\s`),
so the code falls straight back to the filename — it never consults the
`title:` label, whose capture `"Algebra"` would be the "first non-empty
capture" the claim promises (formalised by `extractCourseTitleSpec`, which
follows the spec's words). -/
theorem extractCourseTitle_spec_divergence :
    extractCourseTitle "course: @ title: Algebra" "f.txt" = "f" ∧
    extractCourseTitleSpec "course: @ title: Algebra" "f.txt" = "Algebra" ∧
    extractCourseTitle "course: @ title: Algebra" "f.txt" ≠
      extractCourseTitleSpec "course: @ title: Algebra" "f.txt" := by
  refine ⟨?_, ?_, ?_⟩ <;> decide

/-- C8 as amended: the title is derived by matching the first ten lines
against `course:`, `title:`, `syllabus:` in order, *selecting the first
label whose pattern matches at all*; its capture, trimmed, is the title
when non-blank; when that capture is whitespace-only — or when no label
matches — the title is the filename fallback (extension `.pdf`/`.docx`/
`.txt` stripped, underscores replaced by spaces), and later labels are not
consulted. -/
theorem extractCourseTitle_cases (content filename : String) :
    (∀ cap, labelChain (firstLinesL content.data) = some cap →
      trimL cap ≠ [] →
      extractCourseTitle content filename = String.mk (trimL cap)) ∧
    (∀ cap, labelChain (firstLinesL content.data) = some cap →
      trimL cap = [] →
      extractCourseTitle content filename =
        String.mk (fallbackTitleL filename.data)) ∧
    (labelChain (firstLinesL content.data) = none →
      extractCourseTitle content filename =
        String.mk (fallbackTitleL filename.data)) := by
  refine ⟨?_, ?_, ?_⟩
  · intro cap hchain htrim
    unfold extractCourseTitle extractCourseTitleL
    rw [hchain]
    simp [htrim]
  · intro cap hchain htrim
    unfold extractCourseTitle extractCourseTitleL
    rw [hchain]
    simp [htrim]
  · intro hchain
    unfold extractCourseTitle extractCourseTitleL
    rw [hchain]

/-- Witness for C8's amended statement: a labelled syllabus and a filename
fallback, instantiated concretely. -/
theorem extractCourseTitle_cases_witness :
    extractCourseTitle "Course: Intro" "f.txt" = "Intro" ∧
    extractCourseTitle "course: @ title: Algebra" "my_notes.PDF" =
      "my notes" := by
  constructor
  · exact (extractCourseTitle_cases "Course: Intro" "f.txt").1
      "Intro".data (by decide) (by decide)
  · exact (extractCourseTitle_cases "course: @ title: Algebra"
      "my_notes.PDF").2.1 [' '] (by decide) (by decide)

/-! ## C7 — what the 15000-character truncation does and does not protect -/

/-- `splitChar` never returns the empty list of segments. -/
theorem splitChar_ne_nil (sep : Char) (l : List Char) :
    splitChar sep l ≠ [] := by
  cases l with
  | nil => simp [splitChar]
  | cons c rest =>
    simp only [splitChar]
    cases splitChar sep rest with
    | nil => simp
    | cons h t => by_cases hc : c = sep <;> simp [hc]

/-- Splitting a separator-free list yields that list as the only segment. -/
theorem splitChar_of_not_mem {sep : Char} {l : List Char} (h : sep ∉ l) :
    splitChar sep l = [l] := by
  induction l with
  | nil => rfl
  | cons c rest ih =>
    have hc : c ≠ sep := fun hh => h (by simp [hh])
    have hr : splitChar sep rest = [rest] := ih (fun hh => h (by simp [hh]))
    simp [splitChar, hr, hc]

/-- Splitting peels off a separator-free first segment. -/
theorem splitChar_append {sep : Char} {pre rest : List Char} (h : sep ∉ pre) :
    splitChar sep (pre ++ sep :: rest) = pre :: splitChar sep rest := by
  induction pre with
  | nil =>
    obtain ⟨h0, t0, ht⟩ :=
      List.exists_cons_of_ne_nil (splitChar_ne_nil sep rest)
    simp [splitChar, ht]
  | cons c cs ih =>
    have hc : c ≠ sep := fun hh => h (by simp [hh])
    have hr := ih (fun hh => h (by simp [hh]))
    simp [splitChar, hr, hc]

/-- The label scan fails on a text that never contains the label's first
character (case-insensitively). -/
theorem scanLabel_eq_none {label l : List Char} (hlab : label ≠ [])
    (h : ∀ c ∈ l, (label.headD ' ').toLower ≠ c.toLower) :
    scanLabel label l = none := by
  induction l with
  | nil => rfl
  | cons c rest ih =>
    obtain ⟨lc, ls, rfl⟩ := List.exists_cons_of_ne_nil hlab
    have hne : lc.toLower ≠ c.toLower := by simpa using h c (by simp)
    have hstart : startsWithCI (lc :: ls) (c :: rest) = false := by
      simp [startsWithCI, hne]
    simp only [scanLabel, hstart, Bool.false_eq_true, if_false]
    exact ih (fun x hx => h x (by simp [hx]))

/-- The label scan skips over a region that never contains the label's
first character (case-insensitively). -/
theorem scanLabel_append {label pre suf : List Char} (hlab : label ≠ [])
    (h : ∀ c ∈ pre, (label.headD ' ').toLower ≠ c.toLower) :
    scanLabel label (pre ++ suf) = scanLabel label suf := by
  induction pre with
  | nil => rfl
  | cons c cs ih =>
    obtain ⟨lc, ls, rfl⟩ := List.exists_cons_of_ne_nil hlab
    have hne : lc.toLower ≠ c.toLower := by simpa using h c (by simp)
    have hstart : startsWithCI (lc :: ls) (c :: (cs ++ suf)) = false := by
      simp [startsWithCI, hne]
    simp only [List.cons_append, List.append_eq, scanLabel, hstart,
      Bool.false_eq_true, if_false]
    exact ih (fun x hx => h x (by simp [hx]))

/-- Title extraction when no label pattern matches. -/
theorem extractCourseTitleL_of_chain_none {content filename : List Char}
    (h : labelChain (firstLinesL content) = none) :
    extractCourseTitleL content filename = fallbackTitleL filename := by
  unfold extractCourseTitleL
  rw [h]

/-- Title extraction when some label pattern matches. -/
theorem extractCourseTitleL_of_chain_some {content cap : List Char}
    (filename : List Char)
    (h : labelChain (firstLinesL content) = some cap) :
    extractCourseTitleL content filename =
      if trimL cap ≠ [] then trimL cap else fallbackTitleL filename := by
  unfold extractCourseTitleL
  rw [h]

/-- C7 counterexample: two syllabi that agree on their first 15000
characters (one extending the other past the truncation boundary with a
`course:`-labelled line) produce *different* exam titles:
`extractCourseTitle` reads the full, untruncated text, so the claim that
content beyond the truncated prefix never influences the title fails. -/
theorem truncation_stability_counterexample :
    bigSyllabus1.data.take 15000 = bigSyllabus2.data.take 15000 ∧
    extractCourseTitle bigSyllabus1 "notes.txt" ≠
      extractCourseTitle bigSyllabus2 "notes.txt" := by
  have hlen : bigBlock.length = 15000 := by
    show (List.replicate 15000 'a').length = 15000
    rw [List.length_replicate]
  have hmem : ∀ c ∈ bigBlock, c = 'a' :=
    fun c hc => List.eq_of_mem_replicate hc
  have hnl : ('\n') ∉ bigBlock := fun hc => absurd (hmem _ hc) (by decide)
  constructor
  · show bigBlock.take 15000 = (bigBlock ++ '\n' :: "course: b".data).take 15000
    rw [List.take_of_length_le (le_of_eq hlen), List.take_left' hlen]
  · -- the shorter syllabus: no label anywhere, filename fallback
    have hfl1 : firstLinesL bigSyllabus1.data = bigBlock := by
      show firstLinesL bigBlock = bigBlock
      unfold firstLinesL
      rw [splitChar_of_not_mem hnl]
      rfl
    have hnone : ∀ label : List Char, label ≠ [] →
        (label.headD ' ').toLower ≠ 'a' → scanLabel label bigBlock = none := by
      intro label hlab hhead
      refine scanLabel_eq_none hlab (fun c hc => ?_)
      rw [hmem c hc, show ('a' : Char).toLower = 'a' from rfl]
      exact hhead
    have hchain1 : labelChain (firstLinesL bigSyllabus1.data) = none := by
      unfold labelChain
      rw [hfl1, hnone "course".data (by decide) (by decide),
        hnone "title".data (by decide) (by decide),
        hnone "syllabus".data (by decide) (by decide)]
      rfl
    have ht1 : extractCourseTitle bigSyllabus1 "notes.txt" =
        String.mk (fallbackTitleL "notes.txt".data) :=
      congrArg String.mk (extractCourseTitleL_of_chain_none hchain1)
    -- the longer syllabus: the label line past the boundary is found
    have hfl2 : firstLinesL bigSyllabus2.data =
        (bigBlock ++ [' ']) ++ "course: b".data := by
      show firstLinesL (bigBlock ++ '\n' :: "course: b".data) = _
      unfold firstLinesL
      rw [splitChar_append hnl, splitChar_of_not_mem (by decide)]
      rfl
    have hscan2 : scanLabel "course".data
        ((bigBlock ++ [' ']) ++ "course: b".data) = some ['b'] := by
      rw [scanLabel_append (by decide) (fun c hc => ?_)]
      · decide
      · rcases List.mem_append.mp hc with hca | hcs
        · rw [hmem c hca]; decide
        · rw [List.mem_singleton.mp hcs]; decide
    have hchain2 : labelChain (firstLinesL bigSyllabus2.data) =
        some ['b'] := by
      unfold labelChain
      rw [hfl2, hscan2]
      rfl
    have ht2 : extractCourseTitle bigSyllabus2 "notes.txt" =
        String.mk (trimL ['b']) := by
      have hcase := extractCourseTitleL_of_chain_some "notes.txt".data hchain2
      have hif : (if trimL ['b'] ≠ [] then trimL ['b']
          else fallbackTitleL "notes.txt".data) = trimL ['b'] := by decide
      exact congrArg String.mk (hcase.trans hif)
    rw [ht1, ht2]
    decide

/-- C7 as amended: the truncation protects exactly the generation request —
the prompt sent to the model depends on the syllabus only through its first
15000 characters (while, per the counterexample, the exam title and the
mock path read the full text). -/
theorem examPrompt_truncation_stability (s1 s2 : String) (config : ExamConfig)
    (h : s1.data.take 15000 = s2.data.take 15000) :
    buildExamPrompt s1 config = buildExamPrompt s2 config := by
  unfold buildExamPrompt truncatedSyllabus jsSlice
  rw [h]

/-- Witness for C7's amended statement at the two concrete syllabi that
differ past the boundary. -/
theorem examPrompt_truncation_stability_witness :
    buildExamPrompt bigSyllabus1 mockCfg = buildExamPrompt bigSyllabus2 mockCfg := by
  apply examPrompt_truncation_stability
  have hlen : bigBlock.length = 15000 := by
    show (List.replicate 15000 'a').length = 15000
    rw [List.length_replicate]
  show bigBlock.take 15000 = (bigBlock ++ '\n' :: "course: b".data).take 15000
  rw [List.take_of_length_le (le_of_eq hlen), List.take_left' hlen]

end SyllabusAI
